import Mathlib

/-!
Verification of the `brightness` statistics plugin
(`src/dcStats/brightnessStats.py`).

The plugin computes a derived "brightness" index
`(band1**2 + band2**2 + band3**2 + band4**2)**(1/2.0)` over a
time-indexed four-band array collection and reduces it along the time
axis with the configured statistics (default `min`, `max`, `mean`),
returning one named 2-D layer per statistic, plus a `measurements`
method declaring the output metadata.

The embedding below models the labeled-array values as real numbers;
array element types (numpy dtypes) are tracked symbolically through the
floating-point promotion rules of the numeric library, since the source
applies no explicit cast.
-/

namespace DcStats

noncomputable section

/-- Floating-point element types relevant to the plugin: inputs are
float rasters and `measurements` declares `float32`.  Modelled from the
behaviour of the numeric library: elementwise arithmetic on two `float32`
operands yields `float32`, any `float64` operand promotes the result to
`float64`; `x**2`, `x**(1/2.0)` (python-float exponent) and the
`min`/`max`/`mean` reductions preserve a floating dtype. -/
inductive Dtype
  | float32
  | float64
deriving DecidableEq

/-- Dtype of an elementwise binary operation on two floating arrays. -/
def Dtype.promote : Dtype → Dtype → Dtype
  | .float32, .float32 => .float32
  | _, _ => .float64

/-- A labeled 3-D array (`time` × `y` × `x` axes), as handed to the
plugin by the framework: its extents, its element dtype, and its cell
values (total function; cells outside the extents are irrelevant junk). -/
structure DataArray where
  nt : ℕ
  ny : ℕ
  nx : ℕ
  dtype : Dtype
  val : ℕ → ℕ → ℕ → ℝ

/-- A 2-D (`y` × `x`) output layer, the result of reducing a
`DataArray` along its time axis. -/
structure Layer where
  ny : ℕ
  nx : ℕ
  dtype : Dtype
  val : ℕ → ℕ → ℝ

/-- The input array collection: bands keyed by name (a python dict-like
mapping, here an association list looked up by key) together with the
coordinate-reference-system attribute `crs`. -/
structure Dataset where
  bands : List (String × DataArray)
  crs : String

/-- Key lookup `data[band]` in the collection; `none` models the
`KeyError` raised on a missing band name. -/
def Dataset.get (d : Dataset) (k : String) : Option DataArray :=
  d.bands.lookup k

/-- Two arrays have the same time and spatial extents (the condition
under which the elementwise formula is defined; a mismatch raises a
broadcast/alignment error in the array library). -/
abbrev sameShape (a b : DataArray) : Prop :=
  b.nt = a.nt ∧ b.ny = a.ny ∧ b.nx = a.nx

/-- The derived brightness index
`nd = (b1**2 + b2**2 + b3**2 + b4**2)**(1/2.0)` from line 28 of the
source: elementwise, with the python-float exponent `1/2.0` modelled as
real exponentiation by `(1 : ℝ)/2`; the resulting extents are those of
the first band and its dtype follows the promotion of the four input
dtypes (no explicit cast is applied). -/
def ndIndex (a1 a2 a3 a4 : DataArray) : DataArray where
  nt := a1.nt
  ny := a1.ny
  nx := a1.nx
  dtype := (((a1.dtype.promote a2.dtype).promote a3.dtype).promote a4.dtype)
  val := fun t y x =>
    (a1.val t y x ^ 2 + a2.val t y x ^ 2 + a3.val t y x ^ 2 + a4.val t y x ^ 2)
      ^ ((1 : ℝ) / 2)

/-- Minimum of a nonempty list of reals (`0` junk on the empty list,
which corresponds to reducing an empty time axis). -/
def listMin : List ℝ → ℝ
  | [] => 0
  | x :: xs => xs.foldl min x

/-- Maximum of a nonempty list of reals (`0` junk on the empty list). -/
def listMax : List ℝ → ℝ
  | [] => 0
  | x :: xs => xs.foldl max x

/-- The time series of an array at one spatial cell. -/
def timeCol (a : DataArray) (y x : ℕ) : List ℝ :=
  (List.range a.nt).map fun t => a.val t y x

/-- The reduction `nd.min(dim="time", keep_attrs=True)`: minimum along
the time axis, keeping the spatial extents and the element type. -/
def DataArray.tmin (a : DataArray) : Layer where
  ny := a.ny
  nx := a.nx
  dtype := a.dtype
  val := fun y x => listMin (timeCol a y x)

/-- The reduction `nd.max(dim="time", keep_attrs=True)`: maximum along
the time axis. -/
def DataArray.tmax (a : DataArray) : Layer where
  ny := a.ny
  nx := a.nx
  dtype := a.dtype
  val := fun y x => listMax (timeCol a y x)

/-- The reduction `nd.mean(dim="time", keep_attrs=True)`: arithmetic
mean along the time axis (sum divided by the number of time steps;
dtype-preserving for floating inputs). -/
def DataArray.tmean (a : DataArray) : Layer where
  ny := a.ny
  nx := a.nx
  dtype := a.dtype
  val := fun y x => (timeCol a y x).sum / (a.nt : ℝ)

/-- Dynamic resolution `getattr(nd, stat)` of a statistic name against
the reduction methods the array type exposes (the three reductions used
by the default configuration of the plugin); `none` models the
`AttributeError` raised for an unrecognized name. -/
def getStat : String → Option (DataArray → Layer)
  | "min" => some DataArray.tmin
  | "max" => some DataArray.tmax
  | "mean" => some DataArray.tmean
  | _ => none

/-- Failures `compute` can surface, all propagated unmodified from the
underlying libraries: a missing band name (`KeyError`), a shape
mismatch (broadcast error), or an unrecognized statistic name
(`AttributeError`). -/
inductive ComputeError
  | keyError (band : String)
  | shapeError
  | attrError (stat : String)
deriving DecidableEq

/-- The configured plugin object: four band names, the output-name
prefix `name`, and the statistic-name list `stats`. -/
structure brightness where
  band1 : String
  band2 : String
  band3 : String
  band4 : String
  name : String
  stats : List String

/-- The constructor `brightness.__init__`: stores the four band names,
the output-name stem, and `stats if stats else [...]` — a missing
(`None`) or empty (falsy) statistic list is replaced by the default
`min`, `max`, `mean`.  No validation of the statistic names is
performed. -/
def brightness.init (band1 band2 band3 band4 name : String)
    (stats : Option (List String)) : brightness where
  band1 := band1
  band2 := band2
  band3 := band3
  band4 := band4
  name := name
  stats :=
    match stats with
    | none => ["min", "max", "mean"]
    | some l => if l.isEmpty then ["min", "max", "mean"] else l

/-- The output layer name for one statistic: the underscore-join
`"_".join([self.name, stat])`. -/
def joinName (p stat : String) : String :=
  p ++ "_" ++ stat

/-- Python dict assignment `outputs[name] = v`: an existing key keeps
its position and gets the new value; a new key is appended. -/
def dictInsert (k : String) (v : Layer) :
    List (String × Layer) → List (String × Layer)
  | [] => [(k, v)]
  | (k', v') :: rest =>
    if k' = k then (k, v) :: rest else (k', v') :: dictInsert k v rest

/-- The loop of `compute` (lines 30–32): for each configured statistic
in order, resolve it against the derived index and insert the reduced
layer under `"_".join([self.name, stat])`; the first unresolvable name
aborts with the `AttributeError`. -/
def computeStats (nd : DataArray) (p : String) :
    List String → List (String × Layer) →
    Except ComputeError (List (String × Layer))
  | [], acc => .ok acc
  | stat :: rest, acc =>
    match getStat stat with
    | none => .error (.attrError stat)
    | some f => computeStats nd p rest (dictInsert (joinName p stat) (f nd) acc)

/-- The output collection: the named layers and the
coordinate-reference-system attribute
(`xarray.Dataset(outputs, attrs=dict(crs=data.crs))`). -/
structure OutDataset where
  vars : List (String × Layer)
  crs : String

/-- Layer lookup in the output collection. -/
def OutDataset.get (o : OutDataset) (k : String) : Option Layer :=
  o.vars.lookup k

/-- The method `brightness.compute` (lines 27–33): look up the four configured
bands (left to right, as the elementwise expression evaluates),
requiring matching shapes at each addition, form the derived index,
apply each configured statistic along the time axis, and return the
outputs tagged with the `crs` of the input collection. -/
def brightness.compute (b : brightness) (d : Dataset) :
    Except ComputeError OutDataset :=
  match d.get b.band1 with
  | none => .error (.keyError b.band1)
  | some a1 =>
    match d.get b.band2 with
    | none => .error (.keyError b.band2)
    | some a2 =>
      if sameShape a1 a2 then
        match d.get b.band3 with
        | none => .error (.keyError b.band3)
        | some a3 =>
          if sameShape a1 a3 then
            match d.get b.band4 with
            | none => .error (.keyError b.band4)
            | some a4 =>
              if sameShape a1 a4 then
                match computeStats (ndIndex a1 a2 a3 a4) b.name b.stats [] with
                | .ok vs => .ok ⟨vs, d.crs⟩
                | .error e => .error e
              else .error .shapeError
          else .error .shapeError
      else .error .shapeError

/-- A nodata/fill value: the plugin declares `np.nan`. -/
inductive FillValue
  | nan
  | num (x : ℝ)

/-- An output measurement descriptor
(`datacube.model.Measurement(name=..., dtype=..., nodata=..., units=...)`). -/
structure Measurement where
  name : String
  dtype : String
  nodata : FillValue
  units : String

/-- The method `brightness.measurements` (lines 35–37): one descriptor
per configured statistic, named `"_".join([self.name, stat])`, with
dtype `float32`, nodata `np.nan` and units `1`; the
`input_measurements` argument is not inspected. -/
def brightness.measurements (b : brightness)
    (input_measurements : List Measurement) : List Measurement :=
  b.stats.map fun stat =>
    { name := joinName b.name stat
      dtype := "float32"
      nodata := FillValue.nan
      units := "1" }

/-- The well-formed-input condition of the spec: the collection
contains the four configured band names and the bands share one shape. -/
def wfInput (b : brightness) (d : Dataset) (a1 a2 a3 a4 : DataArray) : Prop :=
  d.get b.band1 = some a1 ∧ d.get b.band2 = some a2 ∧
  d.get b.band3 = some a3 ∧ d.get b.band4 = some a4 ∧
  sameShape a1 a2 ∧ sameShape a1 a3 ∧ sameShape a1 a4

/-- State-passing form of a `compute` call: the Python method body
contains no assignment to `self` or to `data`, so its embedding
returns the configuration object and the input collection it was
called with, alongside the result. -/
def brightness.computeState (b : brightness) (d : Dataset) :
    (Except ComputeError OutDataset) × brightness × Dataset :=
  (b.compute d, b, d)

/-! ### Concrete example inputs (for witnesses and counterexamples) -/

/-- A float32 band of zeros with one time step and one spatial cell. -/
def exArr : DataArray :=
  ⟨1, 1, 1, .float32, fun _ _ _ => 0⟩

/-- A four-band float32 collection over `exArr`. -/
def exData : Dataset :=
  ⟨[("b1", exArr), ("b2", exArr), ("b3", exArr), ("b4", exArr)], "EPSG:3577"⟩

/-- A float64 band of zeros with one time step and one spatial cell. -/
def exArr64 : DataArray :=
  ⟨1, 1, 1, .float64, fun _ _ _ => 0⟩

/-- A four-band float64 collection over `exArr64`. -/
def exData64 : Dataset :=
  ⟨[("b1", exArr64), ("b2", exArr64), ("b3", exArr64), ("b4", exArr64)], "EPSG:3577"⟩

/-- A two-time-step float32 band whose values are 2 at the first time
step and 4 at the second. -/
def exBand1T : DataArray :=
  ⟨2, 1, 1, .float32, fun t _ _ => if t = 0 then 2 else 4⟩

/-- A two-time-step float32 band of zeros. -/
def exZeroT : DataArray :=
  ⟨2, 1, 1, .float32, fun _ _ _ => 0⟩

/-- A collection whose derived index has the values 2 and 4 at its two
time steps. -/
def exDataT : Dataset :=
  ⟨[("b1", exBand1T), ("b2", exZeroT), ("b3", exZeroT), ("b4", exZeroT)], "EPSG:3577"⟩

/-- The output collection `compute` produces on `exData` under the
default configuration with output-name stem `p`. -/
def exOut : OutDataset :=
  ⟨[(joinName "p" "min", (ndIndex exArr exArr exArr exArr).tmin),
    (joinName "p" "max", (ndIndex exArr exArr exArr exArr).tmax),
    (joinName "p" "mean", (ndIndex exArr exArr exArr exArr).tmean)], "EPSG:3577"⟩

/-! ### Helper lemmas -/

/-- Output-layer naming is injective in the statistic name for a fixed
prefix. -/
lemma joinName_inj {p s t : String} (h : joinName p s = joinName p t) : s = t := by
  have h2 : (p ++ "_" ++ s).data = (p ++ "_" ++ t).data := congrArg String.data h
  simp only [String.data_append] at h2
  exact String.ext (List.append_cancel_left h2)

lemma joinName_ne {p s t : String} (h : s ≠ t) : joinName p s ≠ joinName p t :=
  fun hc => h (joinName_inj hc)

/-- Every reduction reachable through `getStat` preserves the element
dtype of the reduced array. -/
lemma getStat_dtype {s : String} {f : DataArray → Layer} (h : getStat s = some f)
    (nd : DataArray) : (f nd).dtype = nd.dtype := by
  unfold getStat at h
  split at h
  · rw [Option.some.injEq] at h; subst h; rfl
  · rw [Option.some.injEq] at h; subst h; rfl
  · rw [Option.some.injEq] at h; subst h; rfl
  · exact absurd h (by simp)

/-- Inserting a fresh key appends it at the end of the dict. -/
lemma dictInsert_map_fst {k : String} {v : Layer} :
    ∀ {l : List (String × Layer)}, k ∉ l.map Prod.fst →
      (dictInsert k v l).map Prod.fst = l.map Prod.fst ++ [k]
  | [], _ => rfl
  | (k', v') :: rest, h => by
    have hk : k' ≠ k := by
      intro hc; exact h (by simp [hc])
    simp only [dictInsert, if_neg hk, List.map_cons]
    rw [dictInsert_map_fst (by intro hc; exact h (by simp [hc]))]
    rfl

/-- Members of a dict after insertion: the inserted pair or an original
member. -/
lemma mem_dictInsert {kv : String × Layer} {k : String} {v : Layer} :
    ∀ {l : List (String × Layer)}, kv ∈ dictInsert k v l → kv = (k, v) ∨ kv ∈ l
  | [], h => by simpa [dictInsert] using h
  | (k', v') :: rest, h => by
    by_cases hk : k' = k
    · simp only [dictInsert, if_pos hk] at h
      rcases List.mem_cons.1 h with h | h
      · exact Or.inl h
      · exact Or.inr (List.mem_cons_of_mem _ h)
    · simp only [dictInsert, if_neg hk] at h
      rcases List.mem_cons.1 h with h | h
      · exact Or.inr (by simp [h])
      · rcases mem_dictInsert h with h | h
        · exact Or.inl h
        · exact Or.inr (List.mem_cons_of_mem _ h)

/-- When every configured statistic resolves and the produced layer
names are distinct (and fresh for the accumulator), the statistics loop
succeeds and produces exactly one layer per statistic, keyed in order,
each layer obtained by applying the resolved reduction to the derived
index. -/
lemma computeStats_ok (nd : DataArray) (p : String) :
    ∀ (stats : List String) (acc : List (String × Layer)),
      (∀ s ∈ stats, (getStat s).isSome = true) →
      (acc.map Prod.fst ++ stats.map (joinName p)).Nodup →
      ∃ l, computeStats nd p stats acc = .ok l ∧
        l.map Prod.fst = acc.map Prod.fst ++ stats.map (joinName p) ∧
        ∀ kv ∈ l, kv ∈ acc ∨
          ∃ s f, s ∈ stats ∧ getStat s = some f ∧ kv = (joinName p s, f nd)
  | [], acc, _, _ => ⟨acc, rfl, by simp, fun kv hkv => Or.inl hkv⟩
  | s :: rest, acc, hv, hnd => by
    obtain ⟨f, hf⟩ := Option.isSome_iff_exists.1 (hv s (List.mem_cons_self s rest))
    have hnotmem : joinName p s ∉ acc.map Prod.fst := by
      intro hc
      have hdisj := (List.nodup_append.1 hnd).2.2
      exact hdisj hc (by simp)
    have hkeys := dictInsert_map_fst (v := f nd) hnotmem
    have hnd' : ((dictInsert (joinName p s) (f nd) acc).map Prod.fst
        ++ rest.map (joinName p)).Nodup := by
      rw [hkeys, List.append_assoc, List.singleton_append]
      simpa using hnd
    obtain ⟨l, hl, hlk, hlm⟩ :=
      computeStats_ok nd p rest (dictInsert (joinName p s) (f nd) acc)
        (fun t ht => hv t (List.mem_cons_of_mem _ ht)) hnd'
    refine ⟨l, ?_, ?_, ?_⟩
    · simp only [computeStats, hf]
      exact hl
    · rw [hlk, hkeys, List.append_assoc, List.singleton_append, List.map_cons]
    · intro kv hkv
      rcases hlm kv hkv with hin | ⟨s', f', hs', hf', hkv'⟩
      · rcases mem_dictInsert hin with h | h
        · exact Or.inr ⟨s, f, List.mem_cons_self s rest, hf, h⟩
        · exact Or.inl h
      · exact Or.inr ⟨s', f', List.mem_cons_of_mem _ hs', hf', hkv'⟩

/-- The statistics loop aborts with the attribute-resolution error of
the first unresolvable statistic name. -/
lemma computeStats_err (nd : DataArray) (p : String) {s : String}
    (hs : getStat s = none) :
    ∀ (pre : List String) (rest : List String) (acc : List (String × Layer)),
      (∀ t ∈ pre, (getStat t).isSome = true) →
      computeStats nd p (pre ++ s :: rest) acc = .error (.attrError s)
  | [], rest, acc, _ => by
    simp only [List.nil_append, computeStats, hs]
  | t :: pre', rest, acc, hv => by
    obtain ⟨f, hf⟩ := Option.isSome_iff_exists.1 (hv t (List.mem_cons_self t pre'))
    simp only [List.cons_append, computeStats, hf]
    exact computeStats_err nd p hs pre' rest _
      (fun u hu => hv u (List.mem_cons_of_mem _ hu))

/-- On a well-formed input, `compute` reaches the statistics loop with
the derived index of the four looked-up bands. -/
lemma compute_wf {b : brightness} {d : Dataset} {a1 a2 a3 a4 : DataArray}
    (h : wfInput b d a1 a2 a3 a4) :
    b.compute d =
      match computeStats (ndIndex a1 a2 a3 a4) b.name b.stats [] with
      | .ok vs => .ok ⟨vs, d.crs⟩
      | .error e => .error e := by
  obtain ⟨h1, h2, h3, h4, s2, s3, s4⟩ := h
  simp only [brightness.compute, h1, h2, h3, h4, if_pos s2, if_pos s3, if_pos s4]

/-- The statistics loop under the default configuration: three layers,
keyed min/max/mean in order. -/
lemma computeStats_default (nd : DataArray) (p : String) :
    computeStats nd p ["min", "max", "mean"] [] =
      .ok [(joinName p "min", nd.tmin), (joinName p "max", nd.tmax),
           (joinName p "mean", nd.tmean)] := by
  have h1 : joinName p "min" ≠ joinName p "max" := joinName_ne (by decide)
  have h2 : joinName p "min" ≠ joinName p "mean" := joinName_ne (by decide)
  have h3 : joinName p "max" ≠ joinName p "mean" := joinName_ne (by decide)
  simp only [computeStats, getStat, dictInsert, if_neg h1, if_neg h2, if_neg h3]

/-- The python-float square root of a sum of squares with three zero
bands recovers the nonnegative band value. -/
lemma rpow_half_sq {v : ℝ} (hv : 0 ≤ v) :
    (v ^ 2 + 0 ^ 2 + 0 ^ 2 + 0 ^ 2 : ℝ) ^ ((1 : ℝ) / 2) = v := by
  rw [← Real.sqrt_eq_rpow]
  norm_num
  exact Real.sqrt_sq hv

/-- The time series of a two-time-step array at a cell. -/
lemma timeCol_two {a : DataArray} (h : a.nt = 2) (y x : ℕ) :
    timeCol a y x = [a.val 0 y x, a.val 1 y x] := by
  unfold timeCol
  rw [h]
  rfl

/-! ### Claim theorems -/

/-- C1 (counterexample): the claim fails as stated for a constructed
object whose statistic list repeats a name: with `stats = [min, min]`
the object is constructible, `compute` succeeds on a well-formed input
but produces one output layer (the dict collapses the repeated key)
while `len(stats) = 2` and `measurements` returns two descriptors. -/
theorem c1_counterexample :
    (brightness.init "b1" "b2" "b3" "b4" "p" (some ["min", "min"])).stats.length = 2
    ∧ ((brightness.init "b1" "b2" "b3" "b4" "p" (some ["min", "min"])).compute exData).map
        (fun o => o.vars.length) = .ok 1
    ∧ ((brightness.init "b1" "b2" "b3" "b4" "p" (some ["min", "min"])).measurements
        []).length = 2 :=
  ⟨rfl, rfl, rfl⟩

/-- C1 (amended): for a brightness object whose configured statistic
names are pairwise distinct and each resolve to an available reduction,
and an input collection with the four configured bands of matching
shape, `compute` produces exactly `len(stats)` output layers and
`measurements` exactly `len(stats)` descriptors, with the two name
lists identical and each name equal to the underscore-join of the
configured output stem and the statistic. -/
theorem c1_layer_naming (b : brightness) (d : Dataset) (a1 a2 a3 a4 : DataArray)
    (ms : List Measurement)
    (hwf : wfInput b d a1 a2 a3 a4)
    (hval : ∀ s ∈ b.stats, (getStat s).isSome = true)
    (hnd : b.stats.Nodup) :
    (b.compute d).map (fun o => o.vars.map Prod.fst) = .ok (b.stats.map (joinName b.name))
    ∧ (b.compute d).map (fun o => o.vars.length) = .ok b.stats.length
    ∧ (b.measurements ms).map Measurement.name = b.stats.map (joinName b.name)
    ∧ (b.measurements ms).length = b.stats.length := by
  have hinj : Function.Injective (joinName b.name) := fun s t h => joinName_inj h
  have hnodup : (([] : List (String × Layer)).map Prod.fst
      ++ b.stats.map (joinName b.name)).Nodup := by
    simpa using hnd.map hinj
  obtain ⟨l, hok, hkeys, _⟩ :=
    computeStats_ok (ndIndex a1 a2 a3 a4) b.name b.stats [] hval hnodup
  have hc : b.compute d = .ok ⟨l, d.crs⟩ := by
    rw [compute_wf hwf, hok]
  refine ⟨?_, ?_, ?_, ?_⟩
  · rw [hc]
    exact congrArg Except.ok (by simpa using hkeys)
  · rw [hc]
    exact congrArg Except.ok (by simpa using congrArg List.length hkeys)
  · simp [brightness.measurements]
  · simp [brightness.measurements]

/-- C1 (witness): the amended theorem applied to the default
configuration on the concrete collection `exData`. -/
theorem c1_witness :
    ((brightness.init "b1" "b2" "b3" "b4" "p" none).compute exData).map
        (fun o => o.vars.map Prod.fst) = .ok ["p_min", "p_max", "p_mean"]
    ∧ ((brightness.init "b1" "b2" "b3" "b4" "p" none).measurements []).length = 3 := by
  obtain ⟨h1, _, _, h4⟩ := c1_layer_naming
    (brightness.init "b1" "b2" "b3" "b4" "p" none) exData exArr exArr exArr exArr []
    ⟨rfl, rfl, rfl, rfl, ⟨rfl, rfl, rfl⟩, ⟨rfl, rfl, rfl⟩, ⟨rfl, rfl, rfl⟩⟩
    (by decide) (by decide)
  refine ⟨?_, ?_⟩
  · rw [h1]; rfl
  · rw [h4]; rfl

/-- C2: on a well-formed input, the derived index that `compute` builds
has the time and spatial extents of each input band, and each of its
cells is the square root of the sum of the squares of the four band
values at that cell. -/
theorem c2_nd_formula (b : brightness) (d : Dataset) (a1 a2 a3 a4 : DataArray)
    (hwf : wfInput b d a1 a2 a3 a4) :
    sameShape a1 (ndIndex a1 a2 a3 a4)
    ∧ sameShape a2 (ndIndex a1 a2 a3 a4)
    ∧ sameShape a3 (ndIndex a1 a2 a3 a4)
    ∧ sameShape a4 (ndIndex a1 a2 a3 a4)
    ∧ (∀ t y x, (ndIndex a1 a2 a3 a4).val t y x
        = Real.sqrt (a1.val t y x ^ 2 + a2.val t y x ^ 2
            + a3.val t y x ^ 2 + a4.val t y x ^ 2))
    ∧ b.compute d =
        (match computeStats (ndIndex a1 a2 a3 a4) b.name b.stats [] with
          | .ok vs => .ok ⟨vs, d.crs⟩
          | .error e => .error e) := by
  have hcw := compute_wf hwf
  obtain ⟨_, _, _, _, ⟨e2t, e2y, e2x⟩, ⟨e3t, e3y, e3x⟩, ⟨e4t, e4y, e4x⟩⟩ := hwf
  refine ⟨⟨rfl, rfl, rfl⟩, ⟨e2t.symm, e2y.symm, e2x.symm⟩,
    ⟨e3t.symm, e3y.symm, e3x.symm⟩, ⟨e4t.symm, e4y.symm, e4x.symm⟩, ?_, hcw⟩
  intro t y x
  exact (Real.sqrt_eq_rpow _).symm

/-- C2 (witness): the formula theorem applied to the default
configuration on the concrete collection `exData`. -/
theorem c2_witness :
    (ndIndex exArr exArr exArr exArr).val 0 0 0
      = Real.sqrt (exArr.val 0 0 0 ^ 2 + exArr.val 0 0 0 ^ 2
          + exArr.val 0 0 0 ^ 2 + exArr.val 0 0 0 ^ 2) :=
  ((c2_nd_formula (brightness.init "b1" "b2" "b3" "b4" "p" none) exData
    exArr exArr exArr exArr
    ⟨rfl, rfl, rfl, rfl, ⟨rfl, rfl, rfl⟩, ⟨rfl, rfl, rfl⟩,
      ⟨rfl, rfl, rfl⟩⟩).2.2.2.2.1) 0 0 0

/-- C3: a brightness object configured with a statistic name that is
not among the reductions the array type exposes is constructed without
error (the constructor stores the list unvalidated), and on a
well-formed input `compute` fails with the attribute-resolution error
for the first such name, propagated unmodified. -/
theorem c3_lazy_attr_error (b1 b2 b3 b4 n : String) (pre : List String)
    (s : String) (rest : List String) (d : Dataset) (a1 a2 a3 a4 : DataArray)
    (hwf : wfInput (brightness.init b1 b2 b3 b4 n (some (pre ++ s :: rest))) d a1 a2 a3 a4)
    (hpre : ∀ t ∈ pre, (getStat t).isSome = true)
    (hs : getStat s = none) :
    (brightness.init b1 b2 b3 b4 n (some (pre ++ s :: rest))).stats = pre ++ s :: rest
    ∧ (brightness.init b1 b2 b3 b4 n (some (pre ++ s :: rest))).compute d
        = .error (.attrError s) := by
  have hstats : (brightness.init b1 b2 b3 b4 n (some (pre ++ s :: rest))).stats
      = pre ++ s :: rest := by
    cases pre <;> simp [brightness.init]
  refine ⟨hstats, ?_⟩
  rw [compute_wf hwf, hstats, computeStats_err _ _ hs pre rest [] hpre]

/-- C3 (witness): the unrecognized statistic name `bogus` is accepted
at construction and rejected only when `compute` runs. -/
theorem c3_witness :
    (brightness.init "b1" "b2" "b3" "b4" "p" (some ["bogus"])).stats = ["bogus"]
    ∧ (brightness.init "b1" "b2" "b3" "b4" "p" (some ["bogus"])).compute exData
        = .error (.attrError "bogus") :=
  c3_lazy_attr_error "b1" "b2" "b3" "b4" "p" [] "bogus" [] exData
    exArr exArr exArr exArr
    ⟨rfl, rfl, rfl, rfl, ⟨rfl, rfl, rfl⟩, ⟨rfl, rfl, rfl⟩, ⟨rfl, rfl, rfl⟩⟩
    (by decide) rfl

/-- C4 (counterexample): the claim fails as stated: on a valid
collection of float64 bands, `compute` succeeds and every output layer
has element type float64, not float32 — no cast is applied, so the
output dtype follows the input promotion rather than being float32. -/
theorem c4_counterexample :
    ((brightness.init "b1" "b2" "b3" "b4" "p" none).compute exData64).map
        (fun o => o.vars.map (fun kv => kv.2.dtype))
      = .ok [.float64, .float64, .float64]
    ∧ Dtype.float64 ≠ Dtype.float32 :=
  ⟨rfl, by decide⟩

/-- C4 (amended): on a well-formed input with distinct, resolvable
statistic names, every output layer of `compute` carries the dtype
obtained by promoting the four input band dtypes through the index
formula — which is float32 exactly when all four input bands are
float32 (one layer per configured statistic, as in C1). -/
theorem c4_dtype_follows_promotion (b : brightness) (d : Dataset)
    (a1 a2 a3 a4 : DataArray) (out : OutDataset)
    (hwf : wfInput b d a1 a2 a3 a4)
    (hval : ∀ s ∈ b.stats, (getStat s).isSome = true)
    (hnd : b.stats.Nodup)
    (hout : b.compute d = .ok out) :
    (∀ kv ∈ out.vars,
      kv.2.dtype = (((a1.dtype.promote a2.dtype).promote a3.dtype).promote a4.dtype))
    ∧ ((((a1.dtype.promote a2.dtype).promote a3.dtype).promote a4.dtype) = .float32
        ↔ a1.dtype = .float32 ∧ a2.dtype = .float32
          ∧ a3.dtype = .float32 ∧ a4.dtype = .float32) := by
  have hinj : Function.Injective (joinName b.name) := fun s t h => joinName_inj h
  have hnodup : (([] : List (String × Layer)).map Prod.fst
      ++ b.stats.map (joinName b.name)).Nodup := by
    simpa using hnd.map hinj
  obtain ⟨l, hok, _, hmem⟩ :=
    computeStats_ok (ndIndex a1 a2 a3 a4) b.name b.stats [] hval hnodup
  have hc : b.compute d = .ok ⟨l, d.crs⟩ := by
    rw [compute_wf hwf, hok]
  have hvars : out.vars = l := by
    rw [hout] at hc
    cases congrArg (fun r => match r with | Except.ok o => o.vars | _ => []) hc
    rfl
  constructor
  · intro kv hkv
    rw [hvars] at hkv
    rcases hmem kv hkv with hin | ⟨s, f, _, hf, hkv'⟩
    · exact absurd hin (List.not_mem_nil kv)
    · rw [hkv']
      exact getStat_dtype hf (ndIndex a1 a2 a3 a4)
  · rcases h1 : a1.dtype <;> rcases h2 : a2.dtype <;> rcases h3 : a3.dtype <;>
      rcases h4 : a4.dtype <;> simp [Dtype.promote]

/-- C4 (witness): the amended theorem applied to the all-float32
collection `exData`, at the min layer of the concrete output. -/
theorem c4_witness :
    (joinName "p" "min", (ndIndex exArr exArr exArr exArr).tmin).2.dtype
      = (((exArr.dtype.promote exArr.dtype).promote exArr.dtype).promote exArr.dtype) :=
  ((c4_dtype_follows_promotion (brightness.init "b1" "b2" "b3" "b4" "p" none)
    exData exArr exArr exArr exArr exOut
    ⟨rfl, rfl, rfl, rfl, ⟨rfl, rfl, rfl⟩, ⟨rfl, rfl, rfl⟩, ⟨rfl, rfl, rfl⟩⟩
    (by decide) (by decide) rfl).1)
    (joinName "p" "min", (ndIndex exArr exArr exArr exArr).tmin)
    (List.mem_cons_self _ _)

/-- C5: a brightness object constructed with `stats = None` is the
same object as one constructed with the explicit list
`[min, max, mean]`, all other configuration equal, so `compute` and
`measurements` agree on every input. -/
theorem c5_default_stats (b1 b2 b3 b4 n : String) (d : Dataset)
    (ms : List Measurement) :
    brightness.init b1 b2 b3 b4 n none
      = brightness.init b1 b2 b3 b4 n (some ["min", "max", "mean"])
    ∧ (brightness.init b1 b2 b3 b4 n none).compute d
      = (brightness.init b1 b2 b3 b4 n (some ["min", "max", "mean"])).compute d
    ∧ (brightness.init b1 b2 b3 b4 n none).measurements ms
      = (brightness.init b1 b2 b3 b4 n (some ["min", "max", "mean"])).measurements ms :=
  ⟨rfl, rfl, rfl⟩

/-- C6: under the default configuration, for a well-formed input with
exactly two time steps whose derived-index values at a cell are 2 and
4, the min output layer holds 2, the max layer 4 and the mean layer 3
at that cell. -/
theorem c6_two_step_stats (b1 b2 b3 b4 n : String) (d : Dataset)
    (a1 a2 a3 a4 : DataArray) (y x : ℕ)
    (hwf : wfInput (brightness.init b1 b2 b3 b4 n none) d a1 a2 a3 a4)
    (ht : a1.nt = 2)
    (h0 : (ndIndex a1 a2 a3 a4).val 0 y x = 2)
    (h1 : (ndIndex a1 a2 a3 a4).val 1 y x = 4) :
    ((brightness.init b1 b2 b3 b4 n none).compute d).map
        (fun o => (o.get (joinName n "min")).map fun L => L.val y x) = .ok (some 2)
    ∧ ((brightness.init b1 b2 b3 b4 n none).compute d).map
        (fun o => (o.get (joinName n "max")).map fun L => L.val y x) = .ok (some 4)
    ∧ ((brightness.init b1 b2 b3 b4 n none).compute d).map
        (fun o => (o.get (joinName n "mean")).map fun L => L.val y x) = .ok (some 3) := by
  have hc : (brightness.init b1 b2 b3 b4 n none).compute d
      = .ok ⟨[(joinName n "min", (ndIndex a1 a2 a3 a4).tmin),
              (joinName n "max", (ndIndex a1 a2 a3 a4).tmax),
              (joinName n "mean", (ndIndex a1 a2 a3 a4).tmean)], d.crs⟩ := by
    rw [compute_wf hwf]
    rw [show (brightness.init b1 b2 b3 b4 n none).stats = ["min", "max", "mean"] from rfl,
        show (brightness.init b1 b2 b3 b4 n none).name = n from rfl,
        computeStats_default]
  have hne1 : (joinName n "max" == joinName n "min") = false :=
    beq_eq_false_iff_ne.2 (joinName_ne (by decide))
  have hne2 : (joinName n "mean" == joinName n "min") = false :=
    beq_eq_false_iff_ne.2 (joinName_ne (by decide))
  have hne3 : (joinName n "mean" == joinName n "max") = false :=
    beq_eq_false_iff_ne.2 (joinName_ne (by decide))
  have htc : timeCol (ndIndex a1 a2 a3 a4) y x = [2, 4] := by
    rw [@timeCol_two (ndIndex a1 a2 a3 a4) ht y x, h0, h1]
  have hvmin : (ndIndex a1 a2 a3 a4).tmin.val y x = 2 := by
    show listMin (timeCol (ndIndex a1 a2 a3 a4) y x) = 2
    rw [htc]
    show min (2 : ℝ) 4 = 2
    exact min_eq_left (by norm_num)
  have hvmax : (ndIndex a1 a2 a3 a4).tmax.val y x = 4 := by
    show listMax (timeCol (ndIndex a1 a2 a3 a4) y x) = 4
    rw [htc]
    show max (2 : ℝ) 4 = 4
    exact max_eq_right (by norm_num)
  have hvmean : (ndIndex a1 a2 a3 a4).tmean.val y x = 3 := by
    show (timeCol (ndIndex a1 a2 a3 a4) y x).sum / ((ndIndex a1 a2 a3 a4).nt : ℝ) = 3
    rw [htc, show (ndIndex a1 a2 a3 a4).nt = 2 from ht]
    norm_num
  refine ⟨?_, ?_, ?_⟩
  · rw [hc]
    simp only [Except.map, Except.ok.injEq, OutDataset.get, List.lookup,
      beq_self_eq_true, hne1, hne2, hne3, Option.map_some', Option.some.injEq]
    exact hvmin
  · rw [hc]
    simp only [Except.map, Except.ok.injEq, OutDataset.get, List.lookup,
      beq_self_eq_true, hne1, hne2, hne3, Option.map_some', Option.some.injEq]
    exact hvmax
  · rw [hc]
    simp only [Except.map, Except.ok.injEq, OutDataset.get, List.lookup,
      beq_self_eq_true, hne1, hne2, hne3, Option.map_some', Option.some.injEq]
    exact hvmean

/-- C6 (witness): the theorem applied to the concrete two-time-step
collection `exDataT`, whose derived index takes the values 2 and 4. -/
theorem c6_witness :
    ((brightness.init "b1" "b2" "b3" "b4" "p" none).compute exDataT).map
        (fun o => (o.get (joinName "p" "min")).map fun L => L.val 0 0) = .ok (some 2)
    ∧ ((brightness.init "b1" "b2" "b3" "b4" "p" none).compute exDataT).map
        (fun o => (o.get (joinName "p" "max")).map fun L => L.val 0 0) = .ok (some 4)
    ∧ ((brightness.init "b1" "b2" "b3" "b4" "p" none).compute exDataT).map
        (fun o => (o.get (joinName "p" "mean")).map fun L => L.val 0 0) = .ok (some 3) := by
  have h0 : (ndIndex exBand1T exZeroT exZeroT exZeroT).val 0 0 0 = 2 := by
    show ((2 : ℝ) ^ 2 + 0 ^ 2 + 0 ^ 2 + 0 ^ 2) ^ ((1 : ℝ) / 2) = 2
    exact rpow_half_sq (by norm_num)
  have h1 : (ndIndex exBand1T exZeroT exZeroT exZeroT).val 1 0 0 = 4 := by
    show ((4 : ℝ) ^ 2 + 0 ^ 2 + 0 ^ 2 + 0 ^ 2) ^ ((1 : ℝ) / 2) = 4
    exact rpow_half_sq (by norm_num)
  exact c6_two_step_stats "b1" "b2" "b3" "b4" "p" exDataT
    exBand1T exZeroT exZeroT exZeroT 0 0
    ⟨rfl, rfl, rfl, rfl, ⟨rfl, rfl, rfl⟩, ⟨rfl, rfl, rfl⟩, ⟨rfl, rfl, rfl⟩⟩
    rfl h0 h1

/-- C7: a `compute` call leaves the configuration object and the input
collection unchanged (the method body contains no mutation), and a
second invocation on the state left by the first returns the same
result as the first. -/
theorem c7_no_mutation (b : brightness) (d : Dataset) :
    (b.computeState d).2.1 = b
    ∧ (b.computeState d).2.2 = d
    ∧ (((b.computeState d).2.1).computeState ((b.computeState d).2.2)).1
        = (b.computeState d).1 :=
  ⟨rfl, rfl, rfl⟩

/-- C8: whenever `compute` succeeds, the output collection carries the
coordinate-reference-system attribute of the input collection. -/
theorem c8_crs_preserved (b : brightness) (d : Dataset) (out : OutDataset)
    (h : b.compute d = .ok out) : out.crs = d.crs := by
  unfold brightness.compute at h
  repeat'
    first
      | (rw [Except.ok.injEq] at h; subst h; rfl)
      | exact absurd h (by simp)
      | split at h

/-- C8 (witness): the theorem applied to the concrete collection
`exData`, whose `compute` output is `exOut`. -/
theorem c8_witness : exOut.crs = exData.crs :=
  c8_crs_preserved (brightness.init "b1" "b2" "b3" "b4" "p" none) exData exOut rfl

/-- C9: a brightness object constructed with the empty statistic list
equals one constructed with `stats = None` (the empty list is falsy, so
the default replaces it), and `compute` and `measurements` therefore
produce three layers, not zero. -/
theorem c9_empty_stats (b1 b2 b3 b4 n : String) (d : Dataset)
    (ms : List Measurement) (a1 a2 a3 a4 : DataArray)
    (hwf : wfInput (brightness.init b1 b2 b3 b4 n (some [])) d a1 a2 a3 a4) :
    brightness.init b1 b2 b3 b4 n (some []) = brightness.init b1 b2 b3 b4 n none
    ∧ (brightness.init b1 b2 b3 b4 n (some [])).stats = ["min", "max", "mean"]
    ∧ ((brightness.init b1 b2 b3 b4 n (some [])).measurements ms).length = 3
    ∧ ((brightness.init b1 b2 b3 b4 n (some [])).compute d).map
        (fun o => o.vars.length) = .ok 3 := by
  refine ⟨rfl, rfl, rfl, ?_⟩
  rw [compute_wf hwf]
  rw [show (brightness.init b1 b2 b3 b4 n (some [])).stats = ["min", "max", "mean"] from rfl,
      show (brightness.init b1 b2 b3 b4 n (some [])).name = n from rfl,
      computeStats_default]
  rfl

/-- C9 (witness): the theorem applied to the concrete collection
`exData`. -/
theorem c9_witness :
    brightness.init "b1" "b2" "b3" "b4" "p" (some [])
      = brightness.init "b1" "b2" "b3" "b4" "p" none
    ∧ ((brightness.init "b1" "b2" "b3" "b4" "p" (some [])).compute exData).map
        (fun o => o.vars.length) = .ok 3 := by
  obtain ⟨h1, _, _, h4⟩ := c9_empty_stats "b1" "b2" "b3" "b4" "p" exData []
    exArr exArr exArr exArr
    ⟨rfl, rfl, rfl, rfl, ⟨rfl, rfl, rfl⟩, ⟨rfl, rfl, rfl⟩, ⟨rfl, rfl, rfl⟩⟩
  exact ⟨h1, h4⟩

/-- C10: `measurements` is total for every configured statistic-name
list (even names `compute` would reject), ignores its argument, and
returns one descriptor per configured statistic, each named by the
underscore-join, with dtype float32, NaN nodata and units 1. -/
theorem c10_measurements_total (b : brightness) (ms ms' : List Measurement) :
    (b.measurements ms).length = b.stats.length
    ∧ b.measurements ms = b.measurements ms'
    ∧ (b.measurements ms).map Measurement.name = b.stats.map (joinName b.name)
    ∧ ∀ m ∈ b.measurements ms,
        m.dtype = "float32" ∧ m.nodata = FillValue.nan ∧ m.units = "1" := by
  refine ⟨by simp [brightness.measurements], rfl,
    by simp [brightness.measurements], ?_⟩
  intro m hm
  simp only [brightness.measurements, List.mem_map] at hm
  obtain ⟨s, _, rfl⟩ := hm
  exact ⟨rfl, rfl, rfl⟩

/-- C10 (witness): the theorem applied to a configuration whose
statistic list contains a name `compute` would reject. -/
theorem c10_witness :
    ((brightness.init "b1" "b2" "b3" "b4" "p" (some ["bogus"])).measurements []).length = 1
    ∧ (Measurement.mk (joinName "p" "bogus") "float32" FillValue.nan "1").dtype = "float32"
    ∧ (Measurement.mk (joinName "p" "bogus") "float32" FillValue.nan "1").nodata = FillValue.nan
    ∧ (Measurement.mk (joinName "p" "bogus") "float32" FillValue.nan "1").units = "1" := by
  obtain ⟨ha, _, _, hb⟩ := c10_measurements_total
    (brightness.init "b1" "b2" "b3" "b4" "p" (some ["bogus"])) [] []
  have hm := hb (Measurement.mk (joinName "p" "bogus") "float32" FillValue.nan "1")
    (List.mem_cons_self _ _)
  exact ⟨ha.trans rfl, hm⟩

end

end DcStats
